import Mathlib

/-!
Verification of the resilient data-fetching subsystem of Crypto_pulse_AI.

The development shallowly embeds `src/services/coingeckoService.ts` and the
news service (`src/unnamed/part_001`, imported elsewhere as
`services/newsService`): the proxy registry with cooldown blacklisting, the
circuit breaker, the retrying fetch loop `fetchWithRetry`, the one-shot
public operations with their mock fallbacks, and the subscription-driven
price-polling scheduler.

Modelling conventions:
* timestamps are `Nat` milliseconds (`Date.now()`), frozen for the duration
  of one call;
* the JavaScript `Map` is an association list whose operations keep at most
  one entry per key;
* the HTTP transport is a parameter `Transport`: given the target URL, the
  proxy's registry index and the 0-based attempt number it yields the
  observable outcome of that attempt (rejected, non-ok status, or a parsed
  body after envelope unwrapping);
* prices are exact rationals (`ℚ`);
* the two service files duplicate the same fetch loop; the loop is embedded
  once, parameterized by the service's embedded-error check on response
  bodies (`check`), and each service instantiates it with the check
  translated from its own source lines.
-/

set_option linter.unusedVariables false

namespace CryptoPulse

/-- Timestamps are Unix epoch milliseconds, as produced by `Date.now()`. -/
abbrev Timestamp := Nat

/-! ### Association-list model of the JavaScript `Map`

A JS `Map` holds at most one entry per key; the operations below preserve
that shape, so the replace-all / remove-all formulations used here coincide
with `Map.set` / `Map.delete` on every state the services can build. -/

/-- Model of `Map.get`: the value of the first entry with the given key. -/
def mapGet {V : Type} (m : List (String × V)) (k : String) : Option V :=
  (m.find? (fun e => e.1 == k)).map (fun e => e.2)

/-- Model of `Map.set`: replace the entry for `k` in place, or append a new
one (JS `Map` keeps insertion order and updates existing keys in place). -/
def mapSet {V : Type} (m : List (String × V)) (k : String) (v : V) : List (String × V) :=
  if (m.find? (fun e => e.1 == k)).isSome then
    m.map (fun e => if e.1 == k then (k, v) else e)
  else
    m ++ [(k, v)]

/-- Model of `Map.delete`: drop the entry for `k`. -/
def mapDelete {V : Type} (m : List (String × V)) (k : String) : List (String × V) :=
  m.filter (fun e => e.1 != k)

@[simp] theorem mapGet_nil {V : Type} (k : String) : mapGet ([] : List (String × V)) k = none := rfl

theorem mapGet_cons {V : Type} (e : String × V) (m : List (String × V)) (k : String) :
    mapGet (e :: m) k = if e.1 = k then some e.2 else mapGet m k := by
  by_cases h : e.1 = k <;> simp [mapGet, List.find?_cons, h]

theorem mapSet_nil {V : Type} (k : String) (v : V) :
    mapSet ([] : List (String × V)) k v = [(k, v)] := rfl

theorem mapSet_cons_eq {V : Type} (e : String × V) (es : List (String × V)) (k : String)
    (v : V) (he : e.1 = k) :
    mapSet (e :: es) k v = (k, v) :: es.map (fun e => if e.1 == k then (k, v) else e) := by
  simp [mapSet, List.find?_cons, he]

theorem mapSet_cons_ne {V : Type} (e : String × V) (es : List (String × V)) (k : String)
    (v : V) (he : ¬ e.1 = k) :
    mapSet (e :: es) k v = e :: mapSet es k v := by
  have hb : (e.1 == k) = false := by simpa using he
  simp only [mapSet, List.find?_cons, hb]
  split <;> simp [hb, he]

theorem mapDelete_cons_eq {V : Type} (e : String × V) (es : List (String × V)) (k : String)
    (he : e.1 = k) : mapDelete (e :: es) k = mapDelete es k := by
  simp [mapDelete, List.filter_cons, he]

theorem mapDelete_cons_ne {V : Type} (e : String × V) (es : List (String × V)) (k : String)
    (he : ¬ e.1 = k) : mapDelete (e :: es) k = e :: mapDelete es k := by
  simp [mapDelete, List.filter_cons, he]

theorem mapGet_map_replace_ne {V : Type} (m : List (String × V)) (k k' : String) (v : V)
    (h : k ≠ k') :
    mapGet (m.map (fun e => if e.1 = k then (k, v) else e)) k' = mapGet m k' := by
  induction m with
  | nil => rfl
  | cons e es ih =>
    by_cases he : e.1 = k
    · simp [mapGet_cons, he, h, ih]
    · simp [mapGet_cons, he, ih]

theorem mapGet_mapSet_self {V : Type} (m : List (String × V)) (k : String) (v : V) :
    mapGet (mapSet m k v) k = some v := by
  induction m with
  | nil => simp [mapSet_nil, mapGet_cons]
  | cons e es ih =>
    by_cases he : e.1 = k
    · rw [mapSet_cons_eq e es k v he, mapGet_cons]
      simp
    · rw [mapSet_cons_ne e es k v he, mapGet_cons]
      simp [he, ih]

theorem mapGet_mapSet_ne {V : Type} (m : List (String × V)) (k k' : String) (v : V)
    (h : k ≠ k') : mapGet (mapSet m k v) k' = mapGet m k' := by
  induction m with
  | nil => simp [mapSet_nil, mapGet_cons, h]
  | cons e es ih =>
    by_cases he : e.1 = k
    · rw [mapSet_cons_eq e es k v he, mapGet_cons, mapGet_cons]
      have h1 : ¬ (k = k') := h
      have h2 : ¬ (e.1 = k') := by rw [he]; exact h
      simp [h1, h2, mapGet_map_replace_ne es k k' v h]
    · rw [mapSet_cons_ne e es k v he, mapGet_cons, mapGet_cons, ih]

theorem mapGet_mapDelete_self {V : Type} (m : List (String × V)) (k : String) :
    mapGet (mapDelete m k) k = none := by
  induction m with
  | nil => rfl
  | cons e es ih =>
    by_cases he : e.1 = k
    · rw [mapDelete_cons_eq e es k he]; exact ih
    · rw [mapDelete_cons_ne e es k he, mapGet_cons]; simp [he, ih]

theorem mapGet_mapDelete_ne {V : Type} (m : List (String × V)) (k k' : String)
    (h : k ≠ k') : mapGet (mapDelete m k) k' = mapGet m k' := by
  induction m with
  | nil => rfl
  | cons e es ih =>
    by_cases he : e.1 = k
    · have h2 : ¬ (e.1 = k') := by rw [he]; exact h
      rw [mapDelete_cons_eq e es k he, mapGet_cons, ih]
      simp [h2]
    · rw [mapDelete_cons_ne e es k he, mapGet_cons, mapGet_cons, ih]

/-! ### Proxy registry -/

/-- One CORS proxy of the `PROXIES` table. The source also carries a
`buildUrl : string → string` field; it only assembles the proxied URL handed
to `fetch`, and the transport parameter of the model is indexed by the proxy
itself, so the URL builder contributes no behavior of its own. -/
structure Proxy where
  name : String
deriving DecidableEq, Repr

/-- The `PROXIES` registry, in registration order. -/
def PROXIES : List Proxy := [⟨"AllOrigins"⟩, ⟨"ThingProxy"⟩, ⟨"CORSProxy.io"⟩]

/-- `PROXY_BLACKLIST_DURATION_MS = 60 * 1000`. -/
def PROXY_BLACKLIST_DURATION_MS : Nat := 60 * 1000

/-- `FAILURE_THRESHOLD = 3`. -/
def FAILURE_THRESHOLD : Nat := 3

/-- `CIRCUIT_TRIP_DURATION_MS = 2 * 60 * 1000`. -/
def CIRCUIT_TRIP_DURATION_MS : Nat := 2 * 60 * 1000

/-- A proxy together with its `originalIndex`, as produced by
`PROXIES.map((p, i) => ({...p, originalIndex: i}))`. -/
structure IndexedProxy where
  name : String
  originalIndex : Nat
deriving DecidableEq, Repr

/-- The source's sort comparator
`(a, b) => a.originalIndex === lastWorkingProxyIndex ? -1 : 1`. -/
def proxyOrderCmp (lastWorking : Nat) (a b : IndexedProxy) : Int :=
  if a.originalIndex = lastWorking then -1 else 1

/-- Stable insertion of a later element `x` into an already-sorted run: `x`
moves left past `y` exactly when `cmp x y < 0`. For the comparator above,
whose value ignores its second argument, this coincides with the binary
insertion performed by the stable `Array.prototype.sort` on short arrays. -/
def stableInsert {α : Type} (cmp : α → α → Int) (x : α) : List α → List α
  | [] => [x]
  | y :: ys => if cmp x y < 0 then x :: y :: ys else y :: stableInsert cmp x ys

/-- The stable sort applied by `.sort(...)`: fold the stable insertion over
the array from the left. -/
def jsSort {α : Type} (cmp : α → α → Int) (l : List α) : List α :=
  l.foldl (fun acc x => stableInsert cmp x acc) []

/-- `PROXIES` with original indexes attached. -/
def indexedPROXIES : List IndexedProxy :=
  PROXIES.enum.map (fun e => ⟨e.2.name, e.1⟩)

/-- The cooldown filter of the source: an entry is skipped when its
blacklist value is truthy and still in the future
(`if (blacklistedUntil && Date.now() < blacklistedUntil) return false`). -/
def cooldownKeep (now : Timestamp) (blacklist : List (String × Timestamp))
    (p : IndexedProxy) : Bool :=
  match mapGet blacklist p.name with
  | some bu => !(bu != 0 && decide (now < bu))
  | none => true

/-- The candidate list computed at the top of `fetchWithRetry`: index, sort
the last-working proxy to the front, then drop proxies on cooldown. -/
def availableProxies (now : Timestamp) (lastWorking : Nat)
    (blacklist : List (String × Timestamp)) : List IndexedProxy :=
  (jsSort (proxyOrderCmp lastWorking) indexedPROXIES).filter (cooldownKeep now blacklist)

/-- Candidate list as the specification words it (§4.1): proxies whose
cooldown timestamp is still in the future are removed; the last-working
proxy, when present and not on cooldown, appears first; all other proxies
retain registration order. Stated from the spec, for comparison with
`availableProxies`. -/
def specCandidates (now : Timestamp) (lastWorking : Nat)
    (blacklist : List (String × Timestamp)) : List IndexedProxy :=
  let filtered := indexedPROXIES.filter (fun p =>
    match mapGet blacklist p.name with
    | some ts => !(decide (now < ts))
    | none => true)
  match filtered.find? (fun p => p.originalIndex == lastWorking) with
  | some p => p :: filtered.filter (fun q => q.originalIndex != lastWorking)
  | none => filtered

/-! ### Fetch state machine -/

/-- The module-level mutable state shared by one service instance:
`lastWorkingProxyIndex`, `proxyBlacklist`, `failureCount`,
`circuitTrippedUntil`. -/
structure SvcState where
  lastWorkingProxyIndex : Nat
  proxyBlacklist : List (String × Timestamp)
  failureCount : Nat
  circuitTrippedUntil : Timestamp
deriving DecidableEq, Repr

/-- State at module load. -/
def initState : SvcState := ⟨0, [], 0, 0⟩

/-- The error taxonomy of `fetchWithRetry`, one constructor per distinct
`Error` the source can produce. -/
inductive FetchError where
  /-- `Circuit breaker is open. Retrying in Ns.` -/
  | circuitOpen (secondsLeft : Nat)
  /-- `All proxies are on cooldown. Please wait a moment before retrying.` -/
  | allProxiesOnCooldown
  /-- `Proxy NAME returned status: S` -/
  | proxyStatus (name : String) (status : Nat)
  /-- An embedded API error in a 200 body (message per service). -/
  | apiError (msg : String)
  /-- The transport rejected (`fetch` or `response.json()` threw). -/
  | network
  /-- The `lastError || new Error(...)` fallback when no attempt ran. -/
  | allSourcesUnavailable
deriving DecidableEq, Repr

/-- Observable outcome of one network attempt: the promise rejected, the
response had a non-ok HTTP status, or a body was parsed (after the
`{contents: ...}` envelope unwrap of AllOrigins-style proxies). -/
inductive RawResult (α : Type) where
  | httpError (status : Nat)
  | netError
  | body (data : α)
deriving DecidableEq, Repr

/-- The transport: target URL, the proxy's `originalIndex`, and the 0-based
attempt number determine the outcome of that attempt. -/
abbrev Transport (α : Type) := String → Nat → Nat → RawResult α

/-- The `[401, 403, 404, 429]` list of non-retriable HTTP statuses. -/
def nonRetriableStatuses : List Nat := [401, 403, 404, 429]

/-- Result of running the per-proxy retry loop (`for j in 0..retries`):
the payload on clean success, the final `lastError`, and the transport
attempts issued (proxy index, attempt number), in order. -/
structure AttemptsOut (α : Type) where
  success : Option α
  lastError : Option FetchError
  calls : List (Nat × Nat)
deriving Repr

/-- The inner retry loop of `fetchWithRetry` for one proxy.
`check proxyName body` is the service's embedded-error inspection of a
parsed body: `none` means clean success; `some (e, brk)` records `e` as
`lastError` and aborts this proxy when `brk` (otherwise the error is thrown
and caught, consuming a retry). `remaining` counts attempts left,
`j` is the attempt number. -/
def proxyAttempts {α : Type} (check : String → α → Option (FetchError × Bool))
    (t : Transport α) (url : String) (p : IndexedProxy) :
    (remaining j : Nat) → (lastError : Option FetchError) → AttemptsOut α
  | 0, _, lastError => ⟨none, lastError, []⟩
  | remaining + 1, j, lastError =>
    let tail : AttemptsOut α :=
      match t url p.originalIndex j with
      | .httpError s =>
          if s ∈ nonRetriableStatuses then
            ⟨none, some (.proxyStatus p.name s), []⟩
          else
            proxyAttempts check t url p remaining (j + 1) (some (.proxyStatus p.name s))
      | .netError =>
          proxyAttempts check t url p remaining (j + 1) (some .network)
      | .body d =>
          match check p.name d with
          | some (e, brk) =>
              if brk then ⟨none, some e, []⟩
              else proxyAttempts check t url p remaining (j + 1) (some e)
          | none => ⟨some d, lastError, []⟩
    ⟨tail.success, tail.lastError, (p.originalIndex, j) :: tail.calls⟩

/-- Combined outcome of one `fetchWithRetry` call: the settled promise, the
module state afterwards, and every transport request issued. -/
structure FetchResult (α : Type) where
  result : Except FetchError α
  state : SvcState
  calls : List (Nat × Nat)
deriving Repr

/-- The outer `for (const proxy of availableProxies)` loop. On a clean
success it applies the success bookkeeping (record `lastWorkingProxyIndex`,
drop the proxy's cooldown entry, reset the breaker) and returns; when a
proxy's attempts are exhausted it puts that proxy on cooldown and moves on;
when candidates run out it throws `lastError` or the generic fallback. -/
def proxyLoop {α : Type} (check : String → α → Option (FetchError × Bool))
    (t : Transport α) (url : String) (now : Timestamp) (retries : Nat) :
    (candidates : List IndexedProxy) → SvcState → Option FetchError → FetchResult α
  | [], st, lastError =>
      ⟨.error (lastError.getD .allSourcesUnavailable), st, []⟩
  | p :: rest, st, lastError =>
      let a := proxyAttempts check t url p retries 0 lastError
      match a.success with
      | some d =>
          ⟨.ok d,
           { lastWorkingProxyIndex := p.originalIndex,
             proxyBlacklist := mapDelete st.proxyBlacklist p.name,
             failureCount := 0,
             circuitTrippedUntil := 0 },
           a.calls⟩
      | none =>
          let st1 : SvcState :=
            { st with proxyBlacklist :=
                mapSet st.proxyBlacklist p.name (now + PROXY_BLACKLIST_DURATION_MS) }
          let r := proxyLoop check t url now retries rest st1 a.lastError
          ⟨r.result, r.state, a.calls ++ r.calls⟩

/-- `Math.ceil((circuitTrippedUntil - Date.now()) / 1000)` for
`now < circuitTrippedUntil`: ceiling division of the remaining
milliseconds by 1000. -/
def ceilSecondsLeft (now until' : Timestamp) : Nat :=
  (until' - now + 999) / 1000

/-- The shared `fetchWithRetry`: circuit-breaker guard, candidate
computation, the proxy loop, and the failure accounting of the outer
`catch` (increment `failureCount`; on reaching `FAILURE_THRESHOLD` trip the
breaker and reset the counter). The `check` parameter is the service's
embedded-error inspection; everything else is common to both service
files. The news copy additionally notifies its connection-status listeners
here; that has no effect on this state and is modelled with the polling
layer. -/
def fetchWithRetry {α : Type} (check : String → α → Option (FetchError × Bool))
    (t : Transport α) (url : String) (now : Timestamp) (st : SvcState)
    (retriesPerProxy : Nat := 2) : FetchResult α :=
  if now < st.circuitTrippedUntil then
    ⟨.error (.circuitOpen (ceilSecondsLeft now st.circuitTrippedUntil)), st, []⟩
  else
    let candidates := availableProxies now st.lastWorkingProxyIndex st.proxyBlacklist
    let inner : FetchResult α :=
      if candidates.isEmpty then ⟨.error .allProxiesOnCooldown, st, []⟩
      else proxyLoop check t url now retriesPerProxy candidates st none
    match inner.result with
    | .ok d => ⟨.ok d, inner.state, inner.calls⟩
    | .error e =>
        if inner.state.failureCount + 1 ≥ FAILURE_THRESHOLD then
          ⟨.error e,
           { inner.state with
               failureCount := 0,
               circuitTrippedUntil := now + CIRCUIT_TRIP_DURATION_MS },
           inner.calls⟩
        else
          ⟨.error e,
           { inner.state with failureCount := inner.state.failureCount + 1 },
           inner.calls⟩

/-! ### CoinGecko service instantiation -/

/-- `CoinData` of `types.ts`; prices are exact rationals. -/
structure CoinData where
  id : String
  symbol : String
  name : String
  image : String
  current_price : ℚ
  price_change_percentage_24h : ℚ
deriving DecidableEq, Repr

/-- The `MOCK_COIN_DATA` fallback snapshot. -/
def MOCK_COIN_DATA : List CoinData :=
  [{ id := "bitcoin",
     symbol := "btc",
     name := "Bitcoin",
     image := "https://assets.coingecko.com/coins/images/1/large/bitcoin.png?1696501400",
     current_price := 68123.45,
     price_change_percentage_24h := 1.25 }]

/-- Shape of a parsed `/coins/markets` body as the callers inspect it: an
array of market rows, an object whose `status.error_message` is set (with
its `status.error_code`), or any other JSON value. -/
inductive CoinsResponse where
  | arr (coins : List CoinData)
  | statusErr (msg : String) (code : Nat)
  | notArr
deriving DecidableEq, Repr

/-- Shape of a parsed `/coins/{id}/market_chart` body: an object with a
`prices` array of `[timestamp, price]` pairs, an object carrying
`status.error_message`, or anything else (including a missing or
non-array `prices`). -/
inductive HistoryResponse where
  | prices (pts : List (Nat × ℚ))
  | statusErr (msg : String) (code : Nat)
  | invalid
deriving DecidableEq, Repr

/-- The CoinGecko in-body error check
(`if (data && data.status && data.status.error_message)`): records
`CoinGecko API Error: msg` as `lastError` and aborts the proxy exactly when
`status.error_code === 429`; otherwise the error is thrown and retried. -/
def cgCheck {α : Type} (statusError : α → Option (String × Nat)) :
    String → α → Option (FetchError × Bool) :=
  fun _ d =>
    match statusError d with
    | some (msg, code) => some (.apiError ("CoinGecko API Error: " ++ msg), code == 429)
    | none => none

/-- `status.error_message` / `status.error_code` of a markets body. -/
def coinsStatusError : CoinsResponse → Option (String × Nat)
  | .statusErr msg code => some (msg, code)
  | _ => none

/-- `status.error_message` / `status.error_code` of a chart body. -/
def historyStatusError : HistoryResponse → Option (String × Nat)
  | .statusErr msg code => some (msg, code)
  | _ => none

/-- The markets-endpoint instantiation of the in-body check. -/
def cgCheckCoins : String → CoinsResponse → Option (FetchError × Bool) :=
  cgCheck coinsStatusError

/-- The chart-endpoint instantiation of the in-body check. -/
def cgCheckHistory : String → HistoryResponse → Option (FetchError × Bool) :=
  cgCheck historyStatusError

/-- `COINGECKO_API_BASE_URL`. -/
def COINGECKO_API_BASE_URL : String := "https://api.coingecko.com/api/v3"

/-- The batched markets endpoint URL built from the coin ids. -/
def coinsEndpoint (coinIds : List String) : String :=
  COINGECKO_API_BASE_URL ++ "/coins/markets?vs_currency=usd&ids=" ++
    String.intercalate "," coinIds ++
    "&order=market_cap_desc&per_page=10&page=1&sparkline=false"

/-- `fetchCoinsData`: one-shot snapshot fetch; returns the payload when it
is an array and the fixed mock snapshot on a non-array payload or any
fetch error (the connection-status notification of the failure path has no
effect on this state). -/
def fetchCoinsData (t : Transport CoinsResponse) (now : Timestamp) (st : SvcState)
    (coinIds : List String) : List CoinData × SvcState :=
  let fr := fetchWithRetry cgCheckCoins t (coinsEndpoint coinIds) now st 2
  match fr.result with
  | .ok (.arr coins) => (coins, fr.state)
  | .ok _ => (MOCK_COIN_DATA, fr.state)
  | .error _ => (MOCK_COIN_DATA, fr.state)

/-- Chart timeframes `'1H' | '1D' | '1W' | '1M'`. -/
inductive Timeframe where
  | H1
  | D1
  | W1
  | M1
deriving DecidableEq, Repr

/-- One chart point `{ name, price }`. -/
structure PriceDataPoint where
  name : String
  price : ℚ
deriving DecidableEq, Repr

/-- The `MOCK_PRICE_HISTORY` table of `constants.ts`. -/
def MOCK_PRICE_HISTORY : Timeframe → List PriceDataPoint
  | .H1 =>
      [⟨"-60m", 27280⟩, ⟨"-50m", 27295⟩, ⟨"-40m", 27305⟩, ⟨"-30m", 27290⟩,
       ⟨"-20m", 27310⟩, ⟨"-10m", 27325⟩, ⟨"Now", 27340.12⟩]
  | .D1 =>
      [⟨"-24h", 27100⟩, ⟨"-18h", 27150⟩, ⟨"-12h", 27200⟩, ⟨"-6h", 27280⟩,
       ⟨"Now", 27340.12⟩]
  | .W1 =>
      [⟨"7d", 26800⟩, ⟨"6d", 26950⟩, ⟨"5d", 27050⟩, ⟨"4d", 27000⟩,
       ⟨"3d", 27150⟩, ⟨"2d", 27250⟩, ⟨"1d", 27100⟩, ⟨"Now", 27340.12⟩]
  | .M1 =>
      [⟨"4w", 25500⟩, ⟨"3w", 26500⟩, ⟨"2w", 26200⟩, ⟨"1w", 26800⟩,
       ⟨"Now", 27340.12⟩]

/-- `getTimeframeParams`. -/
def getTimeframeParams : Timeframe → Nat × Option String
  | .H1 => (1, none)
  | .D1 => (1, none)
  | .W1 => (7, some "daily")
  | .M1 => (30, some "daily")

/-- The market-chart endpoint URL for a coin and timeframe. -/
def historyEndpoint (coinId : String) (timeframe : Timeframe) : String :=
  let params := getTimeframeParams timeframe
  let intervalParam := match params.2 with
    | some i => "&interval=" ++ i
    | none => ""
  COINGECKO_API_BASE_URL ++ "/coins/" ++ coinId ++
    "/market_chart?vs_currency=usd&days=" ++ toString params.1 ++ intervalParam

/-- `fetchCoinHistory`: fetch the chart series and bucket it by a
locale-formatted label. `fmtTime`/`fmtDate` model the locale- and
environment-dependent `toLocaleTimeString`/`toLocaleString` calls as
parameters. On any fetch error or a malformed body the fixed mock history
for the timeframe is returned. -/
def fetchCoinHistory (fmtTime fmtDate : Nat → String) (t : Transport HistoryResponse)
    (now : Timestamp) (st : SvcState) (coinId : String) (timeframe : Timeframe) :
    List PriceDataPoint × SvcState :=
  let fr := fetchWithRetry cgCheckHistory t (historyEndpoint coinId timeframe) now st 2
  match fr.result with
  | .ok (.prices pts) =>
      let priceMap := pts.foldl
        (fun m pt =>
          let key := if timeframe = .H1 ∨ timeframe = .D1 then fmtTime pt.1 else fmtDate pt.1
          mapSet m key pt.2)
        []
      let formatted := priceMap.map (fun e => PriceDataPoint.mk e.1 e.2)
      let formatted :=
        if pts.length > 0 then
          match pts.getLast? with
          | some lastPoint =>
              if formatted.length = 0 ∨
                  (formatted.getLast?.map (fun d => d.name)) ≠ some "Now" then
                formatted ++ [⟨"Now", lastPoint.2⟩]
              else formatted
          | none => formatted
        else formatted
      (formatted, fr.state)
  | .ok _ => (MOCK_PRICE_HISTORY timeframe, fr.state)
  | .error _ => (MOCK_PRICE_HISTORY timeframe, fr.state)

/-! ### News service instantiation -/

/-- `NewsArticle` of `types.ts`. -/
structure NewsArticle where
  id : String
  title : String
  url : String
  source : String
  published_on : Nat
  body : String
deriving DecidableEq, Repr

/-- An article object as delivered by the upstream feed: the six projected
fields plus whatever other fields the provider sends (`extra`), which the
service drops. -/
structure RawArticle where
  id : String
  title : String
  url : String
  source : String
  published_on : Nat
  body : String
  extra : List (String × String)
deriving DecidableEq, Repr

/-- The projection applied to each article of a well-formed response. -/
def projectArticle (a : RawArticle) : NewsArticle :=
  ⟨a.id, a.title, a.url, a.source, a.published_on, a.body⟩

/-- A parsed news body as the news service inspects it: the `Type`,
`Response` and `Message` fields (absent = `none`), and `Data` when it is an
array. -/
structure NewsPayload where
  typeNum : Option Nat
  response : Option String
  message : Option String
  dataArr : Option (List RawArticle)
deriving DecidableEq, Repr

/-- The news in-body check
(`parsedData.Type === 99 || parsedData.Response === "Error" ||
(parsedData.Message && parsedData.Message.includes('rate limit'))`): on a
match it records the API error (with the proxy's name and
`Message || 'Rate limit or error response'`) and always aborts the proxy. -/
def newsCheck : String → NewsPayload → Option (FetchError × Bool) :=
  fun proxyName p =>
    let messageHasRateLimit : Bool :=
      match p.message with
      | some m => m != "" && (m.splitOn "rate limit").length != 1
      | none => false
    if p.typeNum == some 99 || p.response == some "Error" || messageHasRateLimit then
      let msg := match p.message with
        | some m => if m = "" then "Rate limit or error response" else m
        | none => "Rate limit or error response"
      some (.apiError ("CryptoCompare API Error (via " ++ proxyName ++ "): " ++ msg), true)
    else none

/-- `NEWS_API_BASE_URL`. -/
def NEWS_API_BASE_URL : String := "https://min-api.cryptocompare.com/data/v2/news/?lang=EN"

/-- The `MOCK_NEWS_ARTICLES` fallback, whose `published_on` stamps are
computed from the time the module was loaded
(`Math.floor(Date.now() / 1000) - ...`). -/
def MOCK_NEWS_ARTICLES (loadTime : Timestamp) : List NewsArticle :=
  [{ id := "mock1",
     title := "Bitcoin Surges Past Key Resistance as Market Sentiment Turns Bullish",
     url := "#",
     source := "Mock Crypto News",
     published_on := loadTime / 1000 - 3600,
     body := "Bitcoin has seen a significant price increase over the last 24 hours, breaking a key resistance level. Analysts attribute this to increased institutional investment and positive regulatory news." },
   { id := "mock2",
     title := "Ethereum \"Dencun\" Upgrade Successfully Deployed, Gas Fees Drop",
     url := "#",
     source := "Mock Tech Block",
     published_on := loadTime / 1000 - 86400,
     body := "The latest Ethereum network upgrade has been successfully implemented on the mainnet. Users are reporting a significant reduction in transaction fees on Layer 2 solutions." }]

/-- `fetchLatestNews`: returns the first 15 projected articles of a
well-formed body (`Type === 100` and an array `Data`), and the fixed mock
articles on a malformed body or any fetch error. -/
def fetchLatestNews (t : Transport NewsPayload) (now loadTime : Timestamp)
    (st : SvcState) : List NewsArticle × SvcState :=
  let fr := fetchWithRetry newsCheck t NEWS_API_BASE_URL now st 2
  match fr.result with
  | .ok p =>
      match p.typeNum, p.dataArr with
      | some 100, some arts => ((arts.map projectArticle).take 15, fr.state)
      | _, _ => (MOCK_NEWS_ARTICLES loadTime, fr.state)
  | .error _ => (MOCK_NEWS_ARTICLES loadTime, fr.state)

/-! ### Price polling and subscriptions

The price service's polling layer: `priceUpdateListeners` keyed by coin id
(callbacks are identified by opaque numeric ids; an invocation is recorded
as an event `(coinId, listener, price)`), the `pollingInterval` timer
modelled as a running flag, the `setTimeout(startPolling, ...)` restart as
a pending flag, and `currentStatus`. `pollForPriceUpdates` runs
synchronously up to its first `await`; `startPolling` installs the interval
right after that point, which the definitions below reproduce. -/

/-- `ConnectionStatus`. -/
inductive ConnectionStatus where
  | polling
  | disconnected
  | suspended
deriving DecidableEq, Repr

/-- Module state of the polling subsystem (the breaker state `svc` is the
same module state `fetchWithRetry` mutates). -/
structure PollState where
  svc : SvcState
  listeners : List (String × List Nat)
  pollingRunning : Bool
  restartPending : Bool
  currentStatus : ConnectionStatus
deriving DecidableEq, Repr

/-- Module state at load. -/
def initPollState : PollState :=
  { svc := initState, listeners := [], pollingRunning := false,
    restartPending := false, currentStatus := .polling }

/-- One callback invocation delivered by the fan-out. -/
structure PriceEvent where
  coinId : String
  listener : Nat
  price : ℚ
deriving DecidableEq, Repr

/-- `notifyPriceUpdateListeners`: invoke every callback registered for the
coin, in registration order; no-op when the coin has no entry. -/
def notifyPriceUpdateListeners (listeners : List (String × List Nat))
    (coinId : String) (newPrice : ℚ) : List PriceEvent :=
  match mapGet listeners coinId with
  | some ls => ls.map (fun l => ⟨coinId, l, newPrice⟩)
  | none => []

/-- `notifyConnectionListeners` invokes the status listeners when the
status changed or is `suspended`; only the resulting `currentStatus` is
kept here (the listener callbacks carry no state of their own). -/
def notifyConn (s : ConnectionStatus) (st : PollState) : PollState :=
  { st with currentStatus := s }

/-- `stopPolling`: clear the interval when it is set. -/
def stopPollingS (st : PollState) : PollState :=
  if st.pollingRunning then { st with pollingRunning := false } else st

/-- The `catch` block of `pollForPriceUpdates`: when the breaker is now
tripped, report `suspended`, stop the interval and schedule one deferred
`startPolling`; otherwise report `disconnected` and leave the interval
running. -/
def pollErrorPath (now : Timestamp) (st : PollState) : PollState :=
  if now < st.svc.circuitTrippedUntil then
    { stopPollingS (notifyConn .suspended st) with restartPending := true }
  else notifyConn .disconnected st

/-- The part of `pollForPriceUpdates` from the batched fetch onward (the
code from the first `await`): perform the fetch, require an array payload,
fan values out to subscribers and report `polling`; a fetch error or a
non-array payload lands in `pollErrorPath`. -/
def pollFetchBody (t : Transport CoinsResponse) (now : Timestamp)
    (coinIds : List String) (st : PollState) : PollState × List PriceEvent :=
  let fr := fetchWithRetry cgCheckCoins t (coinsEndpoint coinIds) now st.svc 2
  let st1 := { st with svc := fr.state }
  match fr.result with
  | .ok (.arr coins) =>
      (notifyConn .polling st1,
       coins.flatMap (fun c => notifyPriceUpdateListeners st.listeners c.id c.current_price))
  | .ok _ => (pollErrorPath now st1, [])
  | .error _ => (pollErrorPath now st1, [])

/-- The part of `pollForPriceUpdates` after the empty-subscription early
return: guard the breaker (a guard throw is handled by `pollErrorPath`),
then run the fetch part. -/
def pollTickBody (t : Transport CoinsResponse) (now : Timestamp)
    (coinIds : List String) (st : PollState) : PollState × List PriceEvent :=
  if now < st.svc.circuitTrippedUntil then
    (pollErrorPath now st, [])
  else pollFetchBody t now coinIds st

/-- One scheduled tick of `pollForPriceUpdates`: with no subscription left
it stops the interval, otherwise it runs the tick body. When the interval
fires, the timer is installed, so the catch's `stopPolling` genuinely
clears it. -/
def pollTick (t : Transport CoinsResponse) (now : Timestamp) (st : PollState) :
    PollState × List PriceEvent :=
  let coinIds := st.listeners.map (fun e => e.1)
  if coinIds.isEmpty then (stopPollingS st, [])
  else pollTickBody t now coinIds st

/-- `startPolling`: no-op when the interval is set; otherwise invoke
`pollForPriceUpdates()` and install the interval. `pollForPriceUpdates`
runs synchronously up to its first `await`, and
`pollingInterval = setInterval(...)` executes when that synchronous prefix
returns control. Hence: the empty-subscription early return and the
circuit-open guard throw (whose catch — `suspended`, `stopPolling`,
deferred restart — sits in the same synchronous prefix) run while
`pollingInterval` is still null, making `stopPolling` a no-op, and the
timer ends installed in both cases; only when the guard passes does the
body suspend at `await fetchWithRetry`, so the fetch part's outcome — including
a `stopPolling` in its catch — lands after the interval is installed. -/
def startPolling (t : Transport CoinsResponse) (now : Timestamp) (st : PollState) :
    PollState × List PriceEvent :=
  if st.pollingRunning then (st, [])
  else
    let coinIds := st.listeners.map (fun e => e.1)
    if coinIds.isEmpty then ({ st with pollingRunning := true }, [])
    else if now < st.svc.circuitTrippedUntil then
      ({ pollErrorPath now st with pollingRunning := true }, [])
    else pollFetchBody t now coinIds { st with pollingRunning := true }

/-- Registration step of `subscribeToPriceUpdates`: create the coin's entry
when absent, then push the callback. -/
def addPriceListener (m : List (String × List Nat)) (coinId : String) (l : Nat) :
    List (String × List Nat) :=
  match mapGet m coinId with
  | none => mapSet m coinId [l]
  | some ls => mapSet m coinId (ls ++ [l])

/-- `subscribeToPriceUpdates`: register the callback and call
`startPolling`. -/
def subscribeToPriceUpdates (t : Transport CoinsResponse) (now : Timestamp)
    (coinId : String) (l : Nat) (st : PollState) : PollState × List PriceEvent :=
  startPolling t now { st with listeners := addPriceListener st.listeners coinId l }

/-- The unsubscribe closure returned by `subscribeToPriceUpdates`: filter
the callback out, drop the coin's entry when its list empties, and stop the
interval when no subscription remains. -/
def unsubscribePriceUpdates (coinId : String) (l : Nat) (st : PollState) : PollState :=
  let st1 :=
    match mapGet st.listeners coinId with
    | some ls =>
        let ls' := ls.filter (fun x => x ≠ l)
        if ls'.length > 0 then
          { st with listeners := mapSet st.listeners coinId ls' }
        else
          { st with listeners := mapDelete st.listeners coinId }
    | none => st
  if st1.listeners.isEmpty then stopPollingS st1 else st1

/-- `manualReconnect`: with at least one subscription, reset the breaker
and restart the scheduler. -/
def manualReconnect (t : Transport CoinsResponse) (now : Timestamp) (st : PollState) :
    PollState × List PriceEvent :=
  if st.listeners.length > 0 then
    let st1 := { st with svc :=
      { st.svc with circuitTrippedUntil := 0, failureCount := 0 } }
    startPolling t now (stopPollingS st1)
  else (st, [])

/-- `stopAllConnections`. -/
def stopAllConnections (st : PollState) : PollState :=
  stopPollingS st

/-! ### Facts about the proxy loop -/

theorem proxyLoop_error_state {α : Type} (check : String → α → Option (FetchError × Bool))
    (t : Transport α) (url : String) (now : Timestamp) (r : Nat)
    (cands : List IndexedProxy) :
    ∀ (st : SvcState) (le : Option FetchError) (e : FetchError),
      (proxyLoop check t url now r cands st le).result = .error e →
      (proxyLoop check t url now r cands st le).state.failureCount = st.failureCount ∧
        (proxyLoop check t url now r cands st le).state.circuitTrippedUntil =
          st.circuitTrippedUntil := by
  induction cands with
  | nil => intro st le e h; simp [proxyLoop]
  | cons p rest ih =>
    intro st le e h
    rcases hs : (proxyAttempts check t url p r 0 le).success with _ | d
    · simp only [proxyLoop, hs] at h ⊢
      exact ih _ _ e h
    · simp [proxyLoop, hs] at h

/-- The breaker guard at the head of `fetchWithRetry`, taken verbatim. -/
theorem fetchWithRetry_guard {α : Type} (check : String → α → Option (FetchError × Bool))
    (t : Transport α) (url : String) (now : Timestamp) (st : SvcState) (r : Nat)
    (h : now < st.circuitTrippedUntil) :
    fetchWithRetry check t url now st r =
      ⟨.error (.circuitOpen (ceilSecondsLeft now st.circuitTrippedUntil)), st, []⟩ := by
  simp [fetchWithRetry, h]

/-- `ceilSecondsLeft` computes `Math.ceil` of the rational division of the
remaining milliseconds by 1000. -/
theorem ceilSecondsLeft_eq_ceil (d : Nat) :
    (((d + 999) / 1000 : Nat) : ℤ) = ⌈(d : ℚ) / 1000⌉ := by
  have h0 : (0 : ℚ) < 1000 := by norm_num
  set k := (d + 999) / 1000 with hk
  set m := (d + 999) % 1000 with hm
  have hdm : 1000 * k + m = d + 999 := Nat.div_add_mod _ _
  have hmlt : m < 1000 := by rw [hm]; exact Nat.mod_lt _ (by norm_num)
  have h1 : (1000 : ℚ) * (k : ℚ) + (m : ℚ) = (d : ℚ) + 999 := by exact_mod_cast hdm
  have h2 : (m : ℚ) < 1000 := by exact_mod_cast hmlt
  have h3 : (0 : ℚ) ≤ (m : ℚ) := Nat.cast_nonneg m
  have h4 : (m : ℚ) ≤ 999 := by
    have : m ≤ 999 := Nat.lt_succ_iff.mp hmlt
    exact_mod_cast this
  have hcast : (((k : ℤ)) : ℚ) = (k : ℚ) := by push_cast; ring
  symm
  rw [Int.ceil_eq_iff]
  constructor
  · rw [lt_div_iff₀ h0, hcast]
    linarith
  · rw [div_le_iff₀ h0, hcast]
    linarith

/-- A transport whose every attempt rejects at the network level. -/
def tFailCoins : Transport CoinsResponse := fun _ _ _ => .netError

/-- C1: a fetch call that passes the breaker guard and ends in an error
(in particular one that exhausted every candidate proxy) trips the circuit
breaker exactly when the incremented consecutive-failure counter reaches
`FAILURE_THRESHOLD = 3`: at that call `circuitTrippedUntil` becomes
`now + CIRCUIT_TRIP_DURATION_MS` (120 s) and the counter is reset to 0;
below the threshold the counter is merely incremented and the trip
timestamp is left unchanged. -/
theorem claim_C1_trip_at_threshold {α : Type}
    (check : String → α → Option (FetchError × Bool)) (t : Transport α)
    (url : String) (now : Timestamp) (st : SvcState) (r : Nat) (e : FetchError)
    (hguard : ¬ now < st.circuitTrippedUntil)
    (herr : (fetchWithRetry check t url now st r).result = .error e) :
    (st.failureCount + 1 ≥ FAILURE_THRESHOLD →
       (fetchWithRetry check t url now st r).state.failureCount = 0 ∧
       (fetchWithRetry check t url now st r).state.circuitTrippedUntil =
         now + CIRCUIT_TRIP_DURATION_MS) ∧
    (st.failureCount + 1 < FAILURE_THRESHOLD →
       (fetchWithRetry check t url now st r).state.failureCount = st.failureCount + 1 ∧
       (fetchWithRetry check t url now st r).state.circuitTrippedUntil =
         st.circuitTrippedUntil) := by
  unfold fetchWithRetry at herr ⊢
  simp only [if_neg hguard] at herr ⊢
  by_cases hemp : (availableProxies now st.lastWorkingProxyIndex st.proxyBlacklist).isEmpty
  · simp only [hemp, if_true] at herr ⊢
    constructor
    · intro hfc
      simp [hfc]
    · intro hfc
      simp [Nat.not_le.mpr hfc, hfc]
  · simp only [hemp, if_false, Bool.false_eq_true] at herr ⊢
    cases hres : (proxyLoop check t url now r
        (availableProxies now st.lastWorkingProxyIndex st.proxyBlacklist) st none).result with
    | ok d => simp [hres] at herr
    | error e2 =>
      have hst := proxyLoop_error_state check t url now r
        (availableProxies now st.lastWorkingProxyIndex st.proxyBlacklist) st none e2 hres
      simp only [hres, hst.1, hst.2]
      constructor
      · intro hfc
        simp [show FAILURE_THRESHOLD ≤ st.failureCount + 1 from hfc]
      · intro hfc
        simp [Nat.not_le.mpr hfc]

/-- Closed instance of C1 at the threshold: with the counter at 2, a fully
failing call trips the breaker and resets the counter. -/
theorem claim_C1_trip_at_threshold_witness :
    ((⟨0, [], 2, 0⟩ : SvcState).failureCount + 1 ≥ FAILURE_THRESHOLD →
       (fetchWithRetry cgCheckCoins tFailCoins "u" 1000 ⟨0, [], 2, 0⟩ 2).state.failureCount = 0 ∧
       (fetchWithRetry cgCheckCoins tFailCoins "u" 1000 ⟨0, [], 2, 0⟩ 2).state.circuitTrippedUntil =
         1000 + CIRCUIT_TRIP_DURATION_MS) ∧
    ((⟨0, [], 2, 0⟩ : SvcState).failureCount + 1 < FAILURE_THRESHOLD →
       (fetchWithRetry cgCheckCoins tFailCoins "u" 1000 ⟨0, [], 2, 0⟩ 2).state.failureCount =
         (⟨0, [], 2, 0⟩ : SvcState).failureCount + 1 ∧
       (fetchWithRetry cgCheckCoins tFailCoins "u" 1000 ⟨0, [], 2, 0⟩ 2).state.circuitTrippedUntil =
         (⟨0, [], 2, 0⟩ : SvcState).circuitTrippedUntil) :=
  claim_C1_trip_at_threshold cgCheckCoins tFailCoins "u" 1000 ⟨0, [], 2, 0⟩ 2 .network
    (by decide) (by rfl)

/-- C2: while `now < circuitTrippedUntil`, the fetch call fails immediately
with the circuit-open error carrying the ceiling of the remaining seconds,
issues no transport request (empty call list), and leaves the module state
(in particular the failure counter) untouched; the candidate-list
computation sits behind this early return and so contributes nothing
observable. -/
theorem claim_C2_circuit_open_fast_fail {α : Type}
    (check : String → α → Option (FetchError × Bool)) (t : Transport α)
    (url : String) (now : Timestamp) (st : SvcState) (r : Nat)
    (h : now < st.circuitTrippedUntil) :
    fetchWithRetry check t url now st r =
      ⟨.error (.circuitOpen (ceilSecondsLeft now st.circuitTrippedUntil)), st, []⟩ ∧
    ((ceilSecondsLeft now st.circuitTrippedUntil : ℤ) =
      ⌈((st.circuitTrippedUntil - now : Nat) : ℚ) / 1000⌉) :=
  ⟨fetchWithRetry_guard check t url now st r h,
   ceilSecondsLeft_eq_ceil (st.circuitTrippedUntil - now)⟩

/-- Closed instance of C2: a call 4001 ms before the trip expires is
rejected with `circuitOpen 5`, no transport call, state unchanged. -/
theorem claim_C2_circuit_open_fast_fail_witness :
    (fetchWithRetry cgCheckCoins tFailCoins "u" 1000 ⟨0, [], 0, 5001⟩ 2 =
      ⟨.error (.circuitOpen (ceilSecondsLeft 1000 (⟨0, [], 0, 5001⟩ : SvcState).circuitTrippedUntil)),
       ⟨0, [], 0, 5001⟩, []⟩) ∧
    ((ceilSecondsLeft 1000 (⟨0, [], 0, 5001⟩ : SvcState).circuitTrippedUntil : ℤ) =
      ⌈(((⟨0, [], 0, 5001⟩ : SvcState).circuitTrippedUntil - 1000 : Nat) : ℚ) / 1000⌉) :=
  claim_C2_circuit_open_fast_fail cgCheckCoins tFailCoins "u" 1000 ⟨0, [], 0, 5001⟩ 2
    (by decide)

/-- C6 as frozen says the empty-candidates failure is NOT counted toward
the breaker tally the way a network failure is. In the source the
`All proxies are on cooldown` throw sits inside the same `try` whose
`catch` performs the failure accounting, so it increments the counter
exactly like a network failure: from a counter of 0 both kinds of call end
at 1, and from a counter of 2 an empty-candidates call trips the breaker. -/
theorem claim_C6_counterexample :
    (fetchWithRetry cgCheckCoins tFailCoins "u" 10
        ⟨0, [("AllOrigins", 50), ("ThingProxy", 50), ("CORSProxy.io", 50)], 0, 0⟩ 2).result =
      .error .allProxiesOnCooldown ∧
    (fetchWithRetry cgCheckCoins tFailCoins "u" 10
        ⟨0, [("AllOrigins", 50), ("ThingProxy", 50), ("CORSProxy.io", 50)], 0, 0⟩ 2).state.failureCount = 1 ∧
    (fetchWithRetry cgCheckCoins tFailCoins "u" 10 initState 2).state.failureCount = 1 ∧
    (fetchWithRetry cgCheckCoins tFailCoins "u" 10
        ⟨0, [("AllOrigins", 50), ("ThingProxy", 50), ("CORSProxy.io", 50)], 2, 0⟩ 2).state.circuitTrippedUntil =
      10 + CIRCUIT_TRIP_DURATION_MS :=
  ⟨rfl, rfl, rfl, rfl⟩

/-- C6 (amended): when the filtered candidate list is empty, the call
fails fast with the distinguishable `allProxiesOnCooldown` error and
issues no transport request; this failure IS counted toward the breaker's
consecutive-failure tally exactly like a network failure (the counter is
incremented, and the breaker trips when it reaches the threshold). -/
theorem claim_C6_no_candidates_counted {α : Type}
    (check : String → α → Option (FetchError × Bool)) (t : Transport α)
    (url : String) (now : Timestamp) (st : SvcState) (r : Nat)
    (hguard : ¬ now < st.circuitTrippedUntil)
    (hemp : availableProxies now st.lastWorkingProxyIndex st.proxyBlacklist = []) :
    (fetchWithRetry check t url now st r).result = .error .allProxiesOnCooldown ∧
    (fetchWithRetry check t url now st r).calls = [] ∧
    (fetchWithRetry check t url now st r).state =
      (if st.failureCount + 1 ≥ FAILURE_THRESHOLD then
        { st with failureCount := 0, circuitTrippedUntil := now + CIRCUIT_TRIP_DURATION_MS }
      else { st with failureCount := st.failureCount + 1 }) := by
  unfold fetchWithRetry
  simp only [if_neg hguard, hemp, List.isEmpty_nil, if_true]
  refine ⟨?_, ?_, ?_⟩ <;> by_cases hfc : FAILURE_THRESHOLD ≤ st.failureCount + 1 <;>
    simp [hfc]

/-- Closed instance of the amended C6 with all three proxies on cooldown. -/
theorem claim_C6_no_candidates_counted_witness :
    (fetchWithRetry cgCheckCoins tFailCoins "u" 10
        ⟨0, [("AllOrigins", 50), ("ThingProxy", 50), ("CORSProxy.io", 50)], 0, 0⟩ 2).result =
      .error .allProxiesOnCooldown ∧
    (fetchWithRetry cgCheckCoins tFailCoins "u" 10
        ⟨0, [("AllOrigins", 50), ("ThingProxy", 50), ("CORSProxy.io", 50)], 0, 0⟩ 2).calls = [] ∧
    (fetchWithRetry cgCheckCoins tFailCoins "u" 10
        ⟨0, [("AllOrigins", 50), ("ThingProxy", 50), ("CORSProxy.io", 50)], 0, 0⟩ 2).state =
      (if (⟨0, [("AllOrigins", 50), ("ThingProxy", 50), ("CORSProxy.io", 50)], 0, 0⟩ : SvcState).failureCount + 1 ≥
          FAILURE_THRESHOLD then
        { (⟨0, [("AllOrigins", 50), ("ThingProxy", 50), ("CORSProxy.io", 50)], 0, 0⟩ : SvcState) with
            failureCount := 0, circuitTrippedUntil := 10 + CIRCUIT_TRIP_DURATION_MS }
      else
        { (⟨0, [("AllOrigins", 50), ("ThingProxy", 50), ("CORSProxy.io", 50)], 0, 0⟩ : SvcState) with
            failureCount :=
              (⟨0, [("AllOrigins", 50), ("ThingProxy", 50), ("CORSProxy.io", 50)], 0, 0⟩ : SvcState).failureCount + 1 }) :=
  claim_C6_no_candidates_counted cgCheckCoins tFailCoins "u" 10
    ⟨0, [("AllOrigins", 50), ("ThingProxy", 50), ("CORSProxy.io", 50)], 0, 0⟩ 2
    (by decide) (by decide)

/-- A transport outcome the retry loop treats as a clean success: a parsed
body that the service's in-body check accepts. -/
def cleanSuccess {α : Type} (check : String → α → Option (FetchError × Bool))
    (proxyName : String) : RawResult α → Bool
  | .body d => (check proxyName d).isNone
  | _ => false

theorem proxyAttempts_success_none {α : Type}
    (check : String → α → Option (FetchError × Bool)) (t : Transport α) (url : String)
    (p : IndexedProxy)
    (hf : ∀ j, cleanSuccess check p.name (t url p.originalIndex j) = false) :
    ∀ (remaining j : Nat) (le : Option FetchError),
      (proxyAttempts check t url p remaining j le).success = none := by
  intro remaining
  induction remaining with
  | zero => intro j le; rfl
  | succ rem ih =>
    intro j le
    simp only [proxyAttempts]
    cases ht : t url p.originalIndex j with
    | httpError s =>
      by_cases hs : s ∈ nonRetriableStatuses
      · simp [hs]
      · simp [hs, ih]
    | netError => simp [ih]
    | body d =>
      cases hc : check p.name d with
      | some eb =>
        cases eb with
        | mk e brk => cases brk <;> simp [hc, ih]
      | none =>
        have hfj := hf j
        rw [ht] at hfj
        simp [cleanSuccess, hc] at hfj

theorem proxyLoop_allfail {α : Type}
    (check : String → α → Option (FetchError × Bool)) (t : Transport α) (url : String)
    (now : Timestamp) (retries : Nat) (cands : List IndexedProxy) :
    ∀ (st : SvcState) (le : Option FetchError),
      (∀ p ∈ cands, ∀ j, cleanSuccess check p.name (t url p.originalIndex j) = false) →
      (∃ e, (proxyLoop check t url now retries cands st le).result = .error e) ∧
      (∀ p ∈ cands,
        mapGet (proxyLoop check t url now retries cands st le).state.proxyBlacklist p.name =
          some (now + PROXY_BLACKLIST_DURATION_MS)) ∧
      (∀ k, (∀ p ∈ cands, p.name ≠ k) →
        mapGet (proxyLoop check t url now retries cands st le).state.proxyBlacklist k =
          mapGet st.proxyBlacklist k) := by
  induction cands with
  | nil =>
    intro st le hf
    exact ⟨⟨le.getD .allSourcesUnavailable, rfl⟩, by simp, fun k hk => rfl⟩
  | cons p rest ih =>
    intro st le hf
    have hnone := proxyAttempts_success_none check t url p (hf p (by simp)) retries 0 le
    simp only [proxyLoop, hnone]
    have hrest := ih
      { st with proxyBlacklist := mapSet st.proxyBlacklist p.name (now + PROXY_BLACKLIST_DURATION_MS) }
      (proxyAttempts check t url p retries 0 le).lastError
      (fun q hq jj => hf q (List.mem_cons_of_mem p hq) jj)
    refine ⟨hrest.1, ?_, ?_⟩
    · intro q hq
      rcases List.mem_cons.mp hq with hq | hq
      · subst hq
        by_cases hp : ∀ q2 ∈ rest, q2.name ≠ q.name
        · rw [hrest.2.2 q.name hp]
          exact mapGet_mapSet_self _ _ _
        · push_neg at hp
          obtain ⟨q2, hq2, hq2n⟩ := hp
          have := hrest.2.1 q2 hq2
          rwa [hq2n] at this
      · exact hrest.2.1 q hq
    · intro k hk
      rw [hrest.2.2 k (fun q hq => hk q (List.mem_cons_of_mem p hq))]
      exact mapGet_mapSet_ne _ _ _ _ (hk p (List.mem_cons_self p rest))

/-- C5: on a fetch call that passes the guard and on which no candidate
proxy ever reaches a clean success, the call fails, every candidate proxy
ends up with exactly one cooldown entry expiring at
`now + PROXY_BLACKLIST_DURATION_MS` (60 s), and no cooldown entry of any
other proxy is touched. -/
theorem claim_C5_cooldown_on_full_failure {α : Type}
    (check : String → α → Option (FetchError × Bool)) (t : Transport α)
    (url : String) (now : Timestamp) (st : SvcState) (r : Nat)
    (hguard : ¬ now < st.circuitTrippedUntil)
    (hf : ∀ p ∈ availableProxies now st.lastWorkingProxyIndex st.proxyBlacklist,
       ∀ j, cleanSuccess check p.name (t url p.originalIndex j) = false) :
    (∃ e, (fetchWithRetry check t url now st r).result = .error e) ∧
    (∀ p ∈ availableProxies now st.lastWorkingProxyIndex st.proxyBlacklist,
      mapGet (fetchWithRetry check t url now st r).state.proxyBlacklist p.name =
        some (now + PROXY_BLACKLIST_DURATION_MS)) ∧
    (∀ k, (∀ p ∈ availableProxies now st.lastWorkingProxyIndex st.proxyBlacklist, p.name ≠ k) →
      mapGet (fetchWithRetry check t url now st r).state.proxyBlacklist k =
        mapGet st.proxyBlacklist k) := by
  unfold fetchWithRetry
  simp only [if_neg hguard]
  by_cases hemp : (availableProxies now st.lastWorkingProxyIndex st.proxyBlacklist).isEmpty
  · have hnil : availableProxies now st.lastWorkingProxyIndex st.proxyBlacklist = [] := by
      simpa [List.isEmpty_iff] using hemp
    rw [hnil]
    simp only [List.isEmpty_nil, if_true]
    refine ⟨?_, by simp, ?_⟩
    · by_cases hfc : FAILURE_THRESHOLD ≤ st.failureCount + 1 <;> simp [hfc]
    · intro k hk
      by_cases hfc : FAILURE_THRESHOLD ≤ st.failureCount + 1 <;> simp [hfc]
  · simp only [hemp, Bool.false_eq_true, if_false]
    have hloop := proxyLoop_allfail check t url now r
      (availableProxies now st.lastWorkingProxyIndex st.proxyBlacklist) st none hf
    obtain ⟨e, he⟩ := hloop.1
    simp only [he]
    refine ⟨?_, ?_, ?_⟩
    · by_cases hfc : FAILURE_THRESHOLD ≤
        (proxyLoop check t url now r
          (availableProxies now st.lastWorkingProxyIndex st.proxyBlacklist) st
          none).state.failureCount + 1 <;> exact ⟨e, by simp [hfc]⟩
    · intro p hp
      have := hloop.2.1 p hp
      by_cases hfc : FAILURE_THRESHOLD ≤
        (proxyLoop check t url now r
          (availableProxies now st.lastWorkingProxyIndex st.proxyBlacklist) st
          none).state.failureCount + 1 <;> simpa [hfc] using this
    · intro k hk
      have := hloop.2.2 k hk
      by_cases hfc : FAILURE_THRESHOLD ≤
        (proxyLoop check t url now r
          (availableProxies now st.lastWorkingProxyIndex st.proxyBlacklist) st
          none).state.failureCount + 1 <;> simpa [hfc] using this

/-- Closed instance of C5: with every attempt rejecting, all three
candidates end up on cooldown at `now + 60000` and the call fails. -/
theorem claim_C5_cooldown_on_full_failure_witness :
    (∃ e, (fetchWithRetry cgCheckCoins tFailCoins "u" 7 initState 2).result = .error e) ∧
    (∀ p ∈ availableProxies 7 initState.lastWorkingProxyIndex initState.proxyBlacklist,
      mapGet (fetchWithRetry cgCheckCoins tFailCoins "u" 7 initState 2).state.proxyBlacklist p.name =
        some (7 + PROXY_BLACKLIST_DURATION_MS)) ∧
    (∀ k, (∀ p ∈ availableProxies 7 initState.lastWorkingProxyIndex initState.proxyBlacklist,
        p.name ≠ k) →
      mapGet (fetchWithRetry cgCheckCoins tFailCoins "u" 7 initState 2).state.proxyBlacklist k =
        mapGet initState.proxyBlacklist k) :=
  claim_C5_cooldown_on_full_failure cgCheckCoins tFailCoins "u" 7 initState 2
    (by decide) (fun p hp j => rfl)

theorem proxyAttempts_calls_proxy {α : Type}
    (check : String → α → Option (FetchError × Bool)) (t : Transport α) (url : String)
    (p : IndexedProxy) :
    ∀ (remaining j : Nat) (le : Option FetchError) (c : Nat × Nat),
      c ∈ (proxyAttempts check t url p remaining j le).calls → c.1 = p.originalIndex := by
  intro remaining
  induction remaining with
  | zero => intro j le c hc; simp [proxyAttempts] at hc
  | succ rem ih =>
    intro j le c hc
    cases ht : t url p.originalIndex j with
    | httpError s =>
      by_cases hs : s ∈ nonRetriableStatuses
      · simp [proxyAttempts, ht, hs] at hc
        rw [hc]
      · simp only [proxyAttempts, ht, if_neg hs] at hc
        rcases List.mem_cons.mp hc with h | h
        · rw [h]
        · exact ih _ _ _ h
    | netError =>
      simp only [proxyAttempts, ht] at hc
      rcases List.mem_cons.mp hc with h | h
      · rw [h]
      · exact ih _ _ _ h
    | body d =>
      cases hc2 : check p.name d with
      | some eb =>
        rcases eb with ⟨e, brk⟩
        cases brk with
        | false =>
          simp only [proxyAttempts, ht, hc2, Bool.false_eq_true, if_false] at hc
          rcases List.mem_cons.mp hc with h | h
          · rw [h]
          · exact ih _ _ _ h
        | true =>
          simp [proxyAttempts, ht, hc2] at hc
          rw [hc]
      | none =>
        simp [proxyAttempts, ht, hc2] at hc
        rw [hc]

theorem proxyLoop_success {α : Type}
    (check : String → α → Option (FetchError × Bool)) (t : Transport α) (url : String)
    (now : Timestamp) (retries : Nat) (cands : List IndexedProxy) :
    ∀ (st : SvcState) (le : Option FetchError) (d : α),
      (proxyLoop check t url now retries cands st le).result = .ok d →
      ∃ pre p post, cands = pre ++ p :: post ∧
        (proxyLoop check t url now retries cands st le).state.lastWorkingProxyIndex =
          p.originalIndex ∧
        mapGet (proxyLoop check t url now retries cands st le).state.proxyBlacklist p.name =
          none ∧
        (proxyLoop check t url now retries cands st le).state.failureCount = 0 ∧
        (proxyLoop check t url now retries cands st le).state.circuitTrippedUntil = 0 ∧
        (∀ c ∈ (proxyLoop check t url now retries cands st le).calls,
          c.1 ∈ (pre ++ [p]).map (fun q => q.originalIndex)) := by
  induction cands with
  | nil => intro st le d h; simp [proxyLoop] at h
  | cons p rest ih =>
    intro st le d h
    cases hs : (proxyAttempts check t url p retries 0 le).success with
    | some d0 =>
      refine ⟨[], p, rest, rfl, ?_, ?_, ?_, ?_, ?_⟩
      · simp [proxyLoop, hs]
      · simp only [proxyLoop, hs]
        exact mapGet_mapDelete_self _ _
      · simp [proxyLoop, hs]
      · simp [proxyLoop, hs]
      · intro c hc
        simp only [proxyLoop, hs] at hc
        simp only [List.nil_append, List.map_cons, List.map_nil]
        exact List.mem_singleton.mpr (proxyAttempts_calls_proxy check t url p retries 0 le c hc)
    | none =>
      simp only [proxyLoop, hs] at h ⊢
      obtain ⟨pre, q, post, hsplit, hlw, hbl, hfc, htu, hcalls⟩ := ih _ _ d h
      refine ⟨p :: pre, q, post, by rw [hsplit, List.cons_append], hlw, hbl, hfc, htu, ?_⟩
      intro c hc
      rcases List.mem_append.mp hc with hc | hc
      · have := proxyAttempts_calls_proxy check t url p retries 0 le c hc
        simp [this]
      · have := hcalls c hc
        simp only [List.cons_append, List.map_cons]
        exact List.mem_cons_of_mem _ this

/-- C3: a fetch call that returns a clean success through some candidate
proxy records that proxy as the last-working one, removes its cooldown
entry, resets the failure counter to 0 and `circuitTrippedUntil` to 0, and
returns right away: no transport request was issued to any proxy after the
successful one in candidate order; this holds regardless of the prior
counter and trip values. -/
theorem claim_C3_clean_success_resets {α : Type}
    (check : String → α → Option (FetchError × Bool)) (t : Transport α)
    (url : String) (now : Timestamp) (st : SvcState) (r : Nat) (d : α)
    (h : (fetchWithRetry check t url now st r).result = .ok d) :
    ∃ pre p post,
      availableProxies now st.lastWorkingProxyIndex st.proxyBlacklist = pre ++ p :: post ∧
      (fetchWithRetry check t url now st r).state.lastWorkingProxyIndex = p.originalIndex ∧
      mapGet (fetchWithRetry check t url now st r).state.proxyBlacklist p.name = none ∧
      (fetchWithRetry check t url now st r).state.failureCount = 0 ∧
      (fetchWithRetry check t url now st r).state.circuitTrippedUntil = 0 ∧
      (∀ c ∈ (fetchWithRetry check t url now st r).calls,
        c.1 ∈ (pre ++ [p]).map (fun q => q.originalIndex)) := by
  by_cases hg : now < st.circuitTrippedUntil
  · rw [fetchWithRetry_guard check t url now st r hg] at h
    simp at h
  unfold fetchWithRetry at h ⊢
  simp only [if_neg hg] at h ⊢
  by_cases hemp : (availableProxies now st.lastWorkingProxyIndex st.proxyBlacklist).isEmpty
  · simp only [hemp, if_true] at h
    by_cases hfc : FAILURE_THRESHOLD ≤ st.failureCount + 1 <;> simp [hfc] at h
  · simp only [hemp, Bool.false_eq_true, if_false] at h ⊢
    cases hres : (proxyLoop check t url now r
        (availableProxies now st.lastWorkingProxyIndex st.proxyBlacklist) st none).result with
    | error e =>
      simp only [hres] at h
      by_cases hfc : FAILURE_THRESHOLD ≤
        (proxyLoop check t url now r
          (availableProxies now st.lastWorkingProxyIndex st.proxyBlacklist) st
          none).state.failureCount + 1 <;> simp [hfc] at h
    | ok d0 =>
      simp only [hres]
      exact proxyLoop_success check t url now r _ st none d0 hres

/-- A transport whose every attempt is a clean empty-array success. -/
def tOkCoins : Transport CoinsResponse := fun _ _ _ => .body (.arr [])

/-- Closed instance of C3: a first-attempt success from the initial state. -/
theorem claim_C3_clean_success_resets_witness :
    ∃ pre p post,
      availableProxies 3 initState.lastWorkingProxyIndex initState.proxyBlacklist =
        pre ++ p :: post ∧
      (fetchWithRetry cgCheckCoins tOkCoins "u" 3 initState 2).state.lastWorkingProxyIndex =
        p.originalIndex ∧
      mapGet (fetchWithRetry cgCheckCoins tOkCoins "u" 3 initState 2).state.proxyBlacklist
        p.name = none ∧
      (fetchWithRetry cgCheckCoins tOkCoins "u" 3 initState 2).state.failureCount = 0 ∧
      (fetchWithRetry cgCheckCoins tOkCoins "u" 3 initState 2).state.circuitTrippedUntil = 0 ∧
      (∀ c ∈ (fetchWithRetry cgCheckCoins tOkCoins "u" 3 initState 2).calls,
        c.1 ∈ (pre ++ [p]).map (fun q => q.originalIndex)) :=
  claim_C3_clean_success_resets cgCheckCoins tOkCoins "u" 3 initState 2 (.arr []) rfl

theorem indexedPROXIES_eq :
    indexedPROXIES = [⟨"AllOrigins", 0⟩, ⟨"ThingProxy", 1⟩, ⟨"CORSProxy.io", 2⟩] := rfl

/-- The cooldown filter ignores the truthiness test on the stored
timestamp: a zero entry is never in the future anyway. -/
theorem cooldownKeep_eq (now : Timestamp) (bl : List (String × Timestamp)) (p : IndexedProxy) :
    cooldownKeep now bl p =
      (match mapGet bl p.name with
        | some ts => !(decide (now < ts))
        | none => true) := by
  unfold cooldownKeep
  cases mapGet bl p.name with
  | none => rfl
  | some bu =>
    cases bu with
    | zero => simp
    | succ b => simp

/-- C4: for every fetch call, the candidate proxy list equals the
registry with every proxy whose cooldown timestamp is still in the future
removed, ordered with the last-working proxy (when present and not on
cooldown) first and all other proxies in registration order — the
`specCandidates` reading of the spec. -/
theorem claim_C4_candidate_order (now : Timestamp) (lw : Nat)
    (bl : List (String × Timestamp)) :
    availableProxies now lw bl = specCandidates now lw bl := by
  have hfc : ∀ l : List IndexedProxy,
      l.filter (cooldownKeep now bl) =
      l.filter (fun p => match mapGet bl p.name with
        | some ts => !(decide (now < ts))
        | none => true) :=
    fun l => List.filter_congr (fun p _ => cooldownKeep_eq now bl p)
  unfold availableProxies specCandidates
  rw [hfc]
  set q : IndexedProxy → Bool := fun p => match mapGet bl p.name with
    | some ts => !(decide (now < ts))
    | none => true with hq
  obtain _ | _ | _ | n := lw
  · by_cases h0 : q ⟨"AllOrigins", 0⟩ <;>
      by_cases h1 : q ⟨"ThingProxy", 1⟩ <;>
      by_cases h2 : q ⟨"CORSProxy.io", 2⟩ <;>
      simp [jsSort, stableInsert, proxyOrderCmp, indexedPROXIES_eq, List.filter_cons,
        List.find?_cons, h0, h1, h2]
  · by_cases h0 : q ⟨"AllOrigins", 0⟩ <;>
      by_cases h1 : q ⟨"ThingProxy", 1⟩ <;>
      by_cases h2 : q ⟨"CORSProxy.io", 2⟩ <;>
      simp [jsSort, stableInsert, proxyOrderCmp, indexedPROXIES_eq, List.filter_cons,
        List.find?_cons, h0, h1, h2]
  · by_cases h0 : q ⟨"AllOrigins", 0⟩ <;>
      by_cases h1 : q ⟨"ThingProxy", 1⟩ <;>
      by_cases h2 : q ⟨"CORSProxy.io", 2⟩ <;>
      simp [jsSort, stableInsert, proxyOrderCmp, indexedPROXIES_eq, List.filter_cons,
        List.find?_cons, h0, h1, h2]
  · have e0n : ¬((0 : Nat) = n + 3) := by omega
    have e1n : ¬((1 : Nat) = n + 3) := by omega
    have e2n : ¬((2 : Nat) = n + 3) := by omega
    by_cases h0 : q ⟨"AllOrigins", 0⟩ <;>
      by_cases h1 : q ⟨"ThingProxy", 1⟩ <;>
      by_cases h2 : q ⟨"CORSProxy.io", 2⟩ <;>
      simp [jsSort, stableInsert, proxyOrderCmp, indexedPROXIES_eq, List.filter_cons,
        List.find?_cons, h0, h1, h2, e0n, e1n, e2n]

/-- With a transport whose every attempt rejects, `fetchWithRetry` always
fails: by the guard, by the empty candidate list, or by exhausting every
candidate. -/
theorem fetchWithRetry_netError_errors {α : Type}
    (check : String → α → Option (FetchError × Bool)) (url : String)
    (now : Timestamp) (st : SvcState) (r : Nat) :
    ∃ e, (fetchWithRetry check (fun _ _ _ => RawResult.netError) url now st r).result =
      .error e := by
  by_cases hg : now < st.circuitTrippedUntil
  · exact ⟨_, by rw [fetchWithRetry_guard check _ url now st r hg]⟩
  · unfold fetchWithRetry
    simp only [if_neg hg]
    by_cases hemp : (availableProxies now st.lastWorkingProxyIndex st.proxyBlacklist).isEmpty
    · simp only [hemp, if_true]
      by_cases hfc : FAILURE_THRESHOLD ≤ st.failureCount + 1 <;>
        exact ⟨.allProxiesOnCooldown, by simp [hfc]⟩
    · simp only [hemp, Bool.false_eq_true, if_false]
      have hloop := proxyLoop_allfail check (fun _ _ _ => RawResult.netError) url now r
        (availableProxies now st.lastWorkingProxyIndex st.proxyBlacklist) st none
        (fun p hp j => rfl)
      obtain ⟨e, he⟩ := hloop.1
      simp only [he]
      by_cases hfc : FAILURE_THRESHOLD ≤
        (proxyLoop check (fun _ _ _ => RawResult.netError) url now r
          (availableProxies now st.lastWorkingProxyIndex st.proxyBlacklist) st
          none).state.failureCount + 1 <;> exact ⟨e, by simp [hfc]⟩

/-- A history transport whose every attempt rejects. -/
def tFailHistory : Transport HistoryResponse := fun _ _ _ => .netError

/-- A news transport whose every attempt rejects. -/
def tFailNews : Transport NewsPayload := fun _ _ _ => .netError

/-- C7: the one-shot operations never propagate an error — they are total
functions into their payload type — and on a failing fetch each returns
its fixed documented mock value (`MOCK_COIN_DATA`, the timeframe's
`MOCK_PRICE_HISTORY`, `MOCK_NEWS_ARTICLES`); in particular
`fetchCoinsData` on `["bitcoin"]` with a transport that always fails
returns the mock snapshot, whose entry has id `"bitcoin"`. -/
theorem claim_C7_mock_fallbacks :
    (∀ (t : Transport CoinsResponse) (now : Timestamp) (st : SvcState)
        (ids : List String) (e : FetchError),
      (fetchWithRetry cgCheckCoins t (coinsEndpoint ids) now st 2).result = .error e →
      (fetchCoinsData t now st ids).1 = MOCK_COIN_DATA) ∧
    (∀ (fmtTime fmtDate : Nat → String) (t : Transport HistoryResponse)
        (now : Timestamp) (st : SvcState) (coinId : String) (tf : Timeframe)
        (e : FetchError),
      (fetchWithRetry cgCheckHistory t (historyEndpoint coinId tf) now st 2).result =
        .error e →
      (fetchCoinHistory fmtTime fmtDate t now st coinId tf).1 = MOCK_PRICE_HISTORY tf) ∧
    (∀ (t : Transport NewsPayload) (now loadTime : Timestamp) (st : SvcState)
        (e : FetchError),
      (fetchWithRetry newsCheck t NEWS_API_BASE_URL now st 2).result = .error e →
      (fetchLatestNews t now loadTime st).1 = MOCK_NEWS_ARTICLES loadTime) ∧
    (∀ (now : Timestamp) (st : SvcState),
      (fetchCoinsData (fun _ _ _ => RawResult.netError) now st ["bitcoin"]).1 =
        MOCK_COIN_DATA) ∧
    (∃ c ∈ MOCK_COIN_DATA, c.id = "bitcoin") := by
  refine ⟨?_, ?_, ?_, ?_, ?_⟩
  · intro t now st ids e herr
    unfold fetchCoinsData
    simp only [herr]
  · intro fmtTime fmtDate t now st coinId tf e herr
    unfold fetchCoinHistory
    simp only [herr]
  · intro t now loadTime st e herr
    unfold fetchLatestNews
    simp only [herr]
  · intro now st
    obtain ⟨e, he⟩ :=
      fetchWithRetry_netError_errors cgCheckCoins (coinsEndpoint ["bitcoin"]) now st 2
    unfold fetchCoinsData
    simp only [he]
  · simp [MOCK_COIN_DATA]

/-- Closed instance of C7: each one-shot operation falls back to its mock
value under the always-rejecting transport from the initial state. -/
theorem claim_C7_mock_fallbacks_witness :
    ((fetchCoinsData tFailCoins 0 initState ["bitcoin"]).1 = MOCK_COIN_DATA) ∧
    ((fetchCoinHistory (fun _ => "t") (fun _ => "d") tFailHistory 0 initState "bitcoin"
        .D1).1 = MOCK_PRICE_HISTORY .D1) ∧
    ((fetchLatestNews tFailNews 0 0 initState).1 = MOCK_NEWS_ARTICLES 0) ∧
    ((fetchCoinsData (fun _ _ _ => RawResult.netError) 0 initState ["bitcoin"]).1 =
      MOCK_COIN_DATA) ∧
    (∃ c ∈ MOCK_COIN_DATA, c.id = "bitcoin") :=
  ⟨claim_C7_mock_fallbacks.1 tFailCoins 0 initState ["bitcoin"] .network rfl,
   claim_C7_mock_fallbacks.2.1 (fun _ => "t") (fun _ => "d") tFailHistory 0 initState
     "bitcoin" .D1 .network rfl,
   claim_C7_mock_fallbacks.2.2.1 tFailNews 0 0 initState .network rfl,
   claim_C7_mock_fallbacks.2.2.2.1 0 initState,
   claim_C7_mock_fallbacks.2.2.2.2⟩

/-- C10: when the news fetch succeeds with a well-formed body
(`Type === 100` and an array `Data`), `fetchLatestNews` returns the first
15 articles of the response in order, each projected onto exactly the six
fields of `NewsArticle`, so at most 15 articles even when the response
holds more. -/
theorem claim_C10_news_truncation (t : Transport NewsPayload)
    (now loadTime : Timestamp) (st : SvcState) (p : NewsPayload)
    (arts : List RawArticle)
    (hres : (fetchWithRetry newsCheck t NEWS_API_BASE_URL now st 2).result = .ok p)
    (htype : p.typeNum = some 100) (hdata : p.dataArr = some arts) :
    (fetchLatestNews t now loadTime st).1 = (arts.map projectArticle).take 15 ∧
    (fetchLatestNews t now loadTime st).1 = (arts.take 15).map projectArticle ∧
    (fetchLatestNews t now loadTime st).1.length ≤ 15 := by
  have hmain : (fetchLatestNews t now loadTime st).1 = (arts.map projectArticle).take 15 := by
    unfold fetchLatestNews
    simp only [hres, htype, hdata]
  refine ⟨hmain, ?_, ?_⟩
  · rw [hmain, List.map_take]
  · rw [hmain]
    simp [List.length_take]

/-- A news transport that always delivers a well-formed body of 16
articles. -/
def tNews16 : Transport NewsPayload := fun _ _ _ =>
  .body { typeNum := some 100, response := none, message := none,
          dataArr := some ((List.range 16).map
            (fun i => ⟨toString i, "t", "u", "s", 0, "b", []⟩)) }

/-- Closed instance of C10: a 16-article response is truncated to the
first 15 projected articles. -/
theorem claim_C10_news_truncation_witness :
    (fetchLatestNews tNews16 0 0 initState).1 =
      (((List.range 16).map (fun i =>
          (⟨toString i, "t", "u", "s", 0, "b", []⟩ : RawArticle))).map projectArticle).take 15 ∧
    (fetchLatestNews tNews16 0 0 initState).1 =
      (((List.range 16).map (fun i =>
          (⟨toString i, "t", "u", "s", 0, "b", []⟩ : RawArticle))).take 15).map projectArticle ∧
    (fetchLatestNews tNews16 0 0 initState).1.length ≤ 15 :=
  claim_C10_news_truncation tNews16 0 0 initState
    { typeNum := some 100, response := none, message := none,
      dataArr := some ((List.range 16).map
        (fun i => ⟨toString i, "t", "u", "s", 0, "b", []⟩)) }
    ((List.range 16).map (fun i => ⟨toString i, "t", "u", "s", 0, "b", []⟩))
    rfl rfl rfl

/-! ### Fan-out facts -/

theorem filter_notify_ne (L : List (String × List Nat)) (y X : String) (v : ℚ)
    (h : y ≠ X) :
    (notifyPriceUpdateListeners L y v).filter (fun ev => ev.coinId == X) = [] := by
  unfold notifyPriceUpdateListeners
  cases mapGet L y with
  | none => rfl
  | some ls => simp [List.filter_map, Function.comp_def, h]

theorem filter_notify_self (L : List (String × List Nat)) (y : String) (v : ℚ) :
    (notifyPriceUpdateListeners L y v).filter (fun ev => ev.coinId == y) =
      notifyPriceUpdateListeners L y v := by
  unfold notifyPriceUpdateListeners
  cases mapGet L y with
  | none => rfl
  | some ls => simp [List.filter_map, Function.comp_def]

theorem filter_fanout_absent (L : List (String × List Nat)) (coins : List CoinData)
    (X : String) (habs : ∀ c ∈ coins, c.id ≠ X) :
    (coins.flatMap (fun c => notifyPriceUpdateListeners L c.id c.current_price)).filter
      (fun ev => ev.coinId == X) = [] := by
  induction coins with
  | nil => rfl
  | cons d rest ih =>
    rw [List.flatMap_cons, List.filter_append,
      filter_notify_ne L d.id X d.current_price (habs d (List.mem_cons_self d rest)),
      ih (fun c hc => habs c (List.mem_cons_of_mem d hc))]
    rfl

theorem filter_fanout_present (L : List (String × List Nat)) (coins : List CoinData)
    (c : CoinData) (hmem : c ∈ coins)
    (hnodup : (coins.map (fun x => x.id)).Nodup) :
    (coins.flatMap (fun c2 => notifyPriceUpdateListeners L c2.id c2.current_price)).filter
      (fun ev => ev.coinId == c.id) =
      notifyPriceUpdateListeners L c.id c.current_price := by
  induction coins with
  | nil => simp at hmem
  | cons d rest ih =>
    rw [List.map_cons, List.nodup_cons] at hnodup
    rcases List.mem_cons.mp hmem with hc | hc
    · subst hc
      rw [List.flatMap_cons, List.filter_append, filter_notify_self,
        filter_fanout_absent L rest c.id ?habs, List.append_nil]
      intro q hq hqid
      exact hnodup.1 (hqid ▸ List.mem_map_of_mem (fun x => x.id) hq)
    · have hdne : d.id ≠ c.id := by
        intro he
        exact hnodup.1 (he ▸ List.mem_map_of_mem (fun x => x.id) hc)
      rw [List.flatMap_cons, List.filter_append,
        filter_notify_ne L d.id c.id d.current_price hdne, ih hc hnodup.2]
      rfl

/-- A fetch call that returns a payload passed the breaker guard. -/
theorem fetchWithRetry_ok_guard {α : Type}
    (check : String → α → Option (FetchError × Bool)) (t : Transport α)
    (url : String) (now : Timestamp) (st : SvcState) (r : Nat) (d : α)
    (h : (fetchWithRetry check t url now st r).result = .ok d) :
    ¬ now < st.circuitTrippedUntil := by
  intro hg
  rw [fetchWithRetry_guard check t url now st r hg] at h
  simp at h

/-- C9: on a polling tick whose batched fetch succeeds with an array
whose entity ids are pairwise distinct, each coin `c` of the response
produces exactly one invocation of every callback registered for `c.id`,
in registration order, each receiving `c.current_price`; a subscribed
entity absent from the response receives zero invocations; and the tick
ends reporting `polling` with the fetch's module state. -/
theorem claim_C9_fanout_roundtrip (t : Transport CoinsResponse) (now : Timestamp)
    (coinIds : List String) (st : PollState) (coins : List CoinData)
    (hres : (fetchWithRetry cgCheckCoins t (coinsEndpoint coinIds) now st.svc 2).result =
      .ok (.arr coins))
    (hnodup : (coins.map (fun c => c.id)).Nodup) :
    (∀ c ∈ coins,
      (pollTickBody t now coinIds st).2.filter (fun ev => ev.coinId == c.id) =
        ((mapGet st.listeners c.id).getD []).map
          (fun l => PriceEvent.mk c.id l c.current_price)) ∧
    (∀ X, X ∈ st.listeners.map (fun e => e.1) → (∀ c ∈ coins, c.id ≠ X) →
      (pollTickBody t now coinIds st).2.filter (fun ev => ev.coinId == X) = []) ∧
    (pollTickBody t now coinIds st).1 =
      notifyConn .polling
        { st with svc :=
            (fetchWithRetry cgCheckCoins t (coinsEndpoint coinIds) now st.svc 2).state } := by
  have hg := fetchWithRetry_ok_guard cgCheckCoins t (coinsEndpoint coinIds) now st.svc 2
    (.arr coins) hres
  unfold pollTickBody pollFetchBody
  simp only [if_neg hg, hres]
  refine ⟨?_, ?_, by trivial⟩
  · intro c hc
    rw [filter_fanout_present st.listeners coins c hc hnodup]
    unfold notifyPriceUpdateListeners
    cases mapGet st.listeners c.id with
    | none => rfl
    | some ls => rfl
  · intro X hX habs
    exact filter_fanout_absent st.listeners coins X habs

/-- A concrete bitcoin market row at price 5. -/
def btc5 : CoinData :=
  { id := "bitcoin", symbol := "btc", name := "Bitcoin", image := "i",
    current_price := 5, price_change_percentage_24h := 0 }

/-- A transport delivering one bitcoin row at price 5. -/
def tBtc5 : Transport CoinsResponse := fun _ _ _ => .body (.arr [btc5])

/-- Closed instance of C9: both bitcoin callbacks fire once with price 5;
the subscribed-but-absent ethereum callbacks stay silent. -/
theorem claim_C9_fanout_roundtrip_witness :
    (∀ c ∈ [({ id := "bitcoin", symbol := "btc", name := "Bitcoin", image := "i",
               current_price := 5, price_change_percentage_24h := 0 } : CoinData)],
      (pollTickBody tBtc5 0 ["bitcoin", "ethereum"]
        { initPollState with
            listeners := [("bitcoin", [0, 1]), ("ethereum", [2])] }).2.filter
          (fun ev => ev.coinId == c.id) =
        ((mapGet ({ initPollState with
            listeners := [("bitcoin", [0, 1]), ("ethereum", [2])] } : PollState).listeners
            c.id).getD []).map (fun l => PriceEvent.mk c.id l c.current_price)) ∧
    (∀ X, X ∈ ({ initPollState with
        listeners := [("bitcoin", [0, 1]), ("ethereum", [2])] } : PollState).listeners.map
          (fun e => e.1) →
      (∀ c ∈ [({ id := "bitcoin", symbol := "btc", name := "Bitcoin", image := "i",
                 current_price := 5, price_change_percentage_24h := 0 } : CoinData)],
        c.id ≠ X) →
      (pollTickBody tBtc5 0 ["bitcoin", "ethereum"]
        { initPollState with
            listeners := [("bitcoin", [0, 1]), ("ethereum", [2])] }).2.filter
          (fun ev => ev.coinId == X) = []) ∧
    (pollTickBody tBtc5 0 ["bitcoin", "ethereum"]
      { initPollState with
          listeners := [("bitcoin", [0, 1]), ("ethereum", [2])] }).1 =
      notifyConn .polling
        { ({ initPollState with
              listeners := [("bitcoin", [0, 1]), ("ethereum", [2])] } : PollState) with
            svc :=
              (fetchWithRetry cgCheckCoins tBtc5 (coinsEndpoint ["bitcoin", "ethereum"]) 0
                ({ initPollState with
                    listeners := [("bitcoin", [0, 1]), ("ethereum", [2])] } : PollState).svc
                2).state } :=
  claim_C9_fanout_roundtrip tBtc5 0 ["bitcoin", "ethereum"]
    { initPollState with listeners := [("bitcoin", [0, 1]), ("ethereum", [2])] }
    [{ id := "bitcoin", symbol := "btc", name := "Bitcoin", image := "i",
       current_price := 5, price_change_percentage_24h := 0 }]
    rfl (by decide)

theorem mapSet_ne_nil {V : Type} (m : List (String × V)) (k : String) (v : V) :
    mapSet m k v ≠ [] := by
  unfold mapSet
  split
  · intro h
    rcases m with _ | ⟨e, es⟩
    · simp at *
    · simp at h
  · simp

theorem addPriceListener_ne_nil (m : List (String × List Nat)) (coinId : String) (l : Nat) :
    addPriceListener m coinId l ≠ [] := by
  unfold addPriceListener
  cases mapGet m coinId with
  | none => exact mapSet_ne_nil m coinId [l]
  | some ls => exact mapSet_ne_nil m coinId (ls ++ [l])

theorem stopPollingS_running (st : PollState) : (stopPollingS st).pollingRunning = false := by
  unfold stopPollingS
  by_cases h : st.pollingRunning <;> simp [h]

theorem stopPollingS_listeners (st : PollState) :
    (stopPollingS st).listeners = st.listeners := by
  unfold stopPollingS
  by_cases h : st.pollingRunning <;> simp [h]

/-- C8 as frozen quantifies over every reachable state of the polling
subsystem. `stopAllConnections` clears the interval without touching the
subscription set, so right after `subscribe('bitcoin', cb)` followed by
`stopAllConnections()` the subscription set is non-empty while the
scheduler is stopped, refuting the running-iff-non-empty equivalence (the
breaker's self-suspension path in `pollForPriceUpdates` stops the timer
with live subscribers in the same way). -/
theorem claim_C8_counterexample :
    (stopAllConnections
        (subscribeToPriceUpdates tOkCoins 0 "bitcoin" 0 initPollState).1).listeners ≠ [] ∧
    (stopAllConnections
        (subscribeToPriceUpdates tOkCoins 0 "bitcoin" 0 initPollState).1).pollingRunning =
      false := by
  refine ⟨by decide, by decide⟩

set_option maxHeartbeats 1000000 in
/-- C8 (amended): the subscribe and unsubscribe operations themselves
maintain the tie between the scheduler and the subscription set.
Subscribing while the scheduler is stopped installs the timer and attempts
one immediate poll: when the breaker is closed and the batched fetch
succeeds with an array, the fan-out over the updated subscription set is
delivered at once and `polling` is reported; when the breaker is open,
the synchronous guard throw reports `suspended` and schedules the deferred
restart before `setInterval` runs, so no fetch happens (breaker state
untouched) yet the timer still ends installed. Unsubscribing the last
remaining callback empties the subscription set and stops the scheduler.
(The running-iff-non-empty equivalence still fails in other reachable
states: breaker self-suspension during a tick and `stopAllConnections`
stop the timer while subscriptions remain.) -/
theorem claim_C8_subscribe_lifecycle :
    (∀ (t : Transport CoinsResponse) (now : Timestamp) (coinId : String) (l : Nat)
        (st : PollState) (coins : List CoinData),
      st.pollingRunning = false →
      (fetchWithRetry cgCheckCoins t
          (coinsEndpoint ((addPriceListener st.listeners coinId l).map (fun e => e.1)))
          now st.svc 2).result = .ok (.arr coins) →
      (subscribeToPriceUpdates t now coinId l st).1.pollingRunning = true ∧
      (subscribeToPriceUpdates t now coinId l st).1.listeners =
        addPriceListener st.listeners coinId l ∧
      (subscribeToPriceUpdates t now coinId l st).1.currentStatus = .polling ∧
      (subscribeToPriceUpdates t now coinId l st).1.svc =
        (fetchWithRetry cgCheckCoins t
          (coinsEndpoint ((addPriceListener st.listeners coinId l).map (fun e => e.1)))
          now st.svc 2).state ∧
      (subscribeToPriceUpdates t now coinId l st).2 =
        coins.flatMap (fun c =>
          notifyPriceUpdateListeners (addPriceListener st.listeners coinId l) c.id
            c.current_price)) ∧
    (∀ (t : Transport CoinsResponse) (now : Timestamp) (coinId : String) (l : Nat)
        (st : PollState),
      st.pollingRunning = false →
      now < st.svc.circuitTrippedUntil →
      (subscribeToPriceUpdates t now coinId l st).1.pollingRunning = true ∧
      (subscribeToPriceUpdates t now coinId l st).1.listeners =
        addPriceListener st.listeners coinId l ∧
      (subscribeToPriceUpdates t now coinId l st).1.currentStatus = .suspended ∧
      (subscribeToPriceUpdates t now coinId l st).1.restartPending = true ∧
      (subscribeToPriceUpdates t now coinId l st).1.svc = st.svc ∧
      (subscribeToPriceUpdates t now coinId l st).2 = []) ∧
    (∀ (coinId : String) (l : Nat) (st : PollState) (ls : List Nat),
      st.listeners = [(coinId, ls)] →
      ls.filter (fun x => x ≠ l) = [] →
      (unsubscribePriceUpdates coinId l st).listeners = [] ∧
      (unsubscribePriceUpdates coinId l st).pollingRunning = false) := by
  refine ⟨?_, ?_, ?_⟩
  · intro t now coinId l st coins hrun hok
    have hg : ¬ now < st.svc.circuitTrippedUntil := by
      intro hlt
      rw [fetchWithRetry_guard cgCheckCoins t _ now st.svc 2 hlt] at hok
      simp at hok
    unfold subscribeToPriceUpdates startPolling
    simp only [hrun, Bool.false_eq_true, if_false]
    have hne : (addPriceListener st.listeners coinId l).map (fun e => e.1) ≠ [] := by
      intro h
      exact addPriceListener_ne_nil st.listeners coinId l (List.map_eq_nil_iff.mp h)
    simp only [List.isEmpty_iff, hne, if_false, if_neg hg]
    unfold pollFetchBody
    simp only [hok]
    refine ⟨?_, ?_, ?_, ?_, ?_⟩ <;> trivial
  · intro t now coinId l st hrun htrip
    unfold subscribeToPriceUpdates startPolling
    simp only [hrun, Bool.false_eq_true, if_false]
    have hne : (addPriceListener st.listeners coinId l).map (fun e => e.1) ≠ [] := by
      intro h
      exact addPriceListener_ne_nil st.listeners coinId l (List.map_eq_nil_iff.mp h)
    simp only [List.isEmpty_iff, hne, if_false, if_pos htrip]
    unfold pollErrorPath
    simp only [htrip, if_true]
    unfold notifyConn stopPollingS
    simp only [hrun, Bool.false_eq_true, if_false]
    refine ⟨?_, ?_, ?_, ?_, ?_, ?_⟩ <;> trivial
  · intro coinId l st ls hl hfilter
    unfold unsubscribePriceUpdates
    have hget : mapGet st.listeners coinId = some ls := by
      rw [hl, mapGet_cons]
      simp
    rw [hget]
    simp only [hfilter, List.length_nil, gt_iff_lt, lt_self_iff_false, if_false]
    have hdel : mapDelete st.listeners coinId = [] := by
      rw [hl]
      simp [mapDelete, List.filter_cons]
    simp only [hdel, List.isEmpty_nil, if_true]
    exact ⟨by rw [stopPollingS_listeners], stopPollingS_running _⟩

/-- A polling state whose (shared) breaker is tripped until 100 ms. -/
def trippedPollState : PollState :=
  { initPollState with svc := { initState with circuitTrippedUntil := 100 } }

set_option maxHeartbeats 1000000 in
/-- Closed instance of the amended C8: subscribing from the stopped
initial state installs the timer and delivers the immediate fan-out;
subscribing while the breaker is open installs the timer, skips the fetch
and reports `suspended` with a deferred restart; unsubscribing the only
callback empties the set and stops the timer. -/
theorem claim_C8_subscribe_lifecycle_witness :
    ((subscribeToPriceUpdates tBtc5 0 "bitcoin" 0 initPollState).1.pollingRunning = true ∧
     (subscribeToPriceUpdates tBtc5 0 "bitcoin" 0 initPollState).1.listeners =
       addPriceListener initPollState.listeners "bitcoin" 0 ∧
     (subscribeToPriceUpdates tBtc5 0 "bitcoin" 0 initPollState).1.currentStatus = .polling ∧
     (subscribeToPriceUpdates tBtc5 0 "bitcoin" 0 initPollState).1.svc =
       (fetchWithRetry cgCheckCoins tBtc5
         (coinsEndpoint ((addPriceListener initPollState.listeners "bitcoin" 0).map
           (fun e => e.1))) 0 initPollState.svc 2).state ∧
     (subscribeToPriceUpdates tBtc5 0 "bitcoin" 0 initPollState).2 =
       [btc5].flatMap (fun c =>
         notifyPriceUpdateListeners (addPriceListener initPollState.listeners "bitcoin" 0)
           c.id c.current_price)) ∧
    ((subscribeToPriceUpdates tBtc5 0 "bitcoin" 0 trippedPollState).1.pollingRunning = true ∧
     (subscribeToPriceUpdates tBtc5 0 "bitcoin" 0 trippedPollState).1.listeners =
       addPriceListener trippedPollState.listeners "bitcoin" 0 ∧
     (subscribeToPriceUpdates tBtc5 0 "bitcoin" 0 trippedPollState).1.currentStatus =
       .suspended ∧
     (subscribeToPriceUpdates tBtc5 0 "bitcoin" 0 trippedPollState).1.restartPending = true ∧
     (subscribeToPriceUpdates tBtc5 0 "bitcoin" 0 trippedPollState).1.svc =
       trippedPollState.svc ∧
     (subscribeToPriceUpdates tBtc5 0 "bitcoin" 0 trippedPollState).2 = []) ∧
    ((unsubscribePriceUpdates "bitcoin" 7
        { initPollState with
            listeners := [("bitcoin", [7])],
            pollingRunning := true }).listeners = [] ∧
     (unsubscribePriceUpdates "bitcoin" 7
        { initPollState with
            listeners := [("bitcoin", [7])],
            pollingRunning := true }).pollingRunning = false) :=
  ⟨claim_C8_subscribe_lifecycle.1 tBtc5 0 "bitcoin" 0 initPollState [btc5] rfl rfl,
   claim_C8_subscribe_lifecycle.2.1 tBtc5 0 "bitcoin" 0 trippedPollState rfl (by decide),
   claim_C8_subscribe_lifecycle.2.2 "bitcoin" 7
     { initPollState with
         listeners := [("bitcoin", [7])],
         pollingRunning := true }
     [7] rfl (by decide)⟩

end CryptoPulse
